import Mathlib

/-!
# Verification of the DingDingNews pipeline (`main.py`)

Shallow embedding of the single-file Python program `main.py`:
a news-fetching pipeline that checks configuration secrets, fetches
articles per keyword, filters and deduplicates them, selects at most
`NEWS_LIMIT` recent ones, and posts a signed webhook message.

Bytes are modelled as `Nat` values below 256, 32-bit words as `Nat`
values below 2^32 with explicit `% 4294967296` where overflow matters,
timestamps as `Int` epoch seconds.
-/

set_option maxRecDepth 100000

namespace DingDingNews

/-! ## 32-bit word arithmetic -/

def add32 (a b : Nat) : Nat := (a + b) % 4294967296

def rotr32 (n x : Nat) : Nat := (x >>> n) ||| ((x <<< (32 - n)) % 4294967296)

/-! ## SHA-256 (as used by Python `hashlib.sha256`) -/

/-- The 64 SHA-256 round constants (decimal). -/
def shaK : List Nat :=
  [1116352408, 1899447441, 3049323471, 3921009573,
   961987163, 1508970993, 2453635748, 2870763221,
   3624381080, 310598401, 607225278, 1426881987,
   1925078388, 2162078206, 2614888103, 3248222580,
   3835390401, 4022224774, 264347078, 604807628,
   770255983, 1249150122, 1555081692, 1996064986,
   2554220882, 2821834349, 2952996808, 3210313671,
   3336571891, 3584528711, 113926993, 338241895,
   666307205, 773529912, 1294757372, 1396182291,
   1695183700, 1986661051, 2177026350, 2456956037,
   2730485921, 2820302411, 3259730800, 3345764771,
   3516065817, 3600352804, 4094571909, 275423344,
   430227734, 506948616, 659060556, 883997877,
   958139571, 1322822218, 1537002063, 1747873779,
   1955562222, 2024104815, 2227730452, 2361852424,
   2428436474, 2756734187, 3204031479, 3329325298]

/-- The initial SHA-256 hash state (decimal). -/
def shaH0 : List Nat :=
  [1779033703, 3144134277, 1013904242, 2773480762,
   1359893119, 2600822924, 528734635, 1541459225]

def bigSigma0 (x : Nat) : Nat := (rotr32 2 x) ^^^ (rotr32 13 x) ^^^ (rotr32 22 x)

def bigSigma1 (x : Nat) : Nat := (rotr32 6 x) ^^^ (rotr32 11 x) ^^^ (rotr32 25 x)

def smallSigma0 (x : Nat) : Nat := (rotr32 7 x) ^^^ (rotr32 18 x) ^^^ (x >>> 3)

def smallSigma1 (x : Nat) : Nat := (rotr32 17 x) ^^^ (rotr32 19 x) ^^^ (x >>> 10)

def chooseF (x y z : Nat) : Nat := (x &&& y) ^^^ ((x ^^^ 4294967295) &&& z)

def majF (x y z : Nat) : Nat := (x &&& y) ^^^ (x &&& z) ^^^ (y &&& z)

/-- Big-endian 8-byte encoding of a 64-bit length. -/
def toBE64 (n : Nat) : List Nat :=
  [(n >>> 56) % 256, (n >>> 48) % 256, (n >>> 40) % 256, (n >>> 32) % 256,
   (n >>> 24) % 256, (n >>> 16) % 256, (n >>> 8) % 256, n % 256]

/-- SHA-256 padding: append 0x80, zero bytes up to 56 mod 64, then bit length. -/
def shaPad (msg : List Nat) : List Nat :=
  msg ++ [128] ++ List.replicate ((119 - msg.length % 64) % 64) 0 ++ toBE64 (8 * msg.length)

/-- Group bytes into big-endian 32-bit words. -/
def bytesToWords : List Nat → List Nat
  | b0 :: b1 :: b2 :: b3 :: rest =>
      (((b0 * 256 + b1) * 256 + b2) * 256 + b3) :: bytesToWords rest
  | _ => []

/-- Split a word list into blocks of 16 words (fuel-counted recursion). -/
def shaBlocksAux : Nat → List Nat → List (List Nat)
  | 0, _ => []
  | _ + 1, [] => []
  | n + 1, w :: ws => ((w :: ws).take 16) :: shaBlocksAux n ((w :: ws).drop 16)

def shaBlocks (ws : List Nat) : List (List Nat) := shaBlocksAux ws.length ws

/-- Extend a 16-word block to the 64-word message schedule. -/
def msgSchedule (block : List Nat) : Array Nat :=
  (List.range 48).foldl (fun w j =>
    w.push (add32 (add32 (smallSigma1 (w.getD (j + 14) 0)) (w.getD (j + 9) 0))
                  (add32 (smallSigma0 (w.getD (j + 1) 0)) (w.getD j 0))))
    block.toArray

/-- One round of the SHA-256 compression on state `[a,b,c,d,e,f,g,h]`. -/
def compressWord (s : List Nat) (kw : Nat × Nat) : List Nat :=
  match s with
  | [a, b, c, d, e, f, g, h] =>
      let t1 := add32 h (add32 (bigSigma1 e) (add32 (chooseF e f g) (add32 kw.1 kw.2)))
      let t2 := add32 (bigSigma0 a) (majF a b c)
      [add32 t1 t2, a, b, c, add32 d t1, e, f, g]
  | _ => s

/-- Compress one block into the running hash state. -/
def shaCompress (h : List Nat) (block : List Nat) : List Nat :=
  let w := msgSchedule block
  let s := (shaK.zip w.toList).foldl compressWord h
  (h.zip s).map (fun p => add32 p.1 p.2)

/-- SHA-256 of a byte list, as a 32-byte list. -/
def sha256 (msg : List Nat) : List Nat :=
  let hF := (shaBlocks (bytesToWords (shaPad msg))).foldl shaCompress shaH0
  (hF.map (fun w => [(w >>> 24) % 256, (w >>> 16) % 256, (w >>> 8) % 256, w % 256])).flatten

/-- HMAC-SHA256 (Python `hmac.new(key, msg, hashlib.sha256).digest()`). -/
def hmacSha256 (key msg : List Nat) : List Nat :=
  let k0 := if 64 < key.length then sha256 key else key
  let kp := k0 ++ List.replicate (64 - k0.length) 0
  sha256 ((kp.map (fun b => b ^^^ 92)) ++ sha256 ((kp.map (fun b => b ^^^ 54)) ++ msg))

/-! ## UTF-8, base64, percent-encoding -/

/-- UTF-8 encoding of one character (Python `str.encode("utf-8")`, per char). -/
def utf8Char (c : Char) : List Nat :=
  let n := c.toNat
  if n < 128 then [n]
  else if n < 2048 then [192 + n / 64, 128 + n % 64]
  else if n < 65536 then [224 + n / 4096, 128 + (n / 64) % 64, 128 + n % 64]
  else [240 + n / 262144, 128 + (n / 4096) % 64, 128 + (n / 64) % 64, 128 + n % 64]

/-- UTF-8 encoding of a string as a byte list. -/
def utf8 (s : String) : List Nat := (s.data.map utf8Char).flatten

def b64Char (n : Nat) : Char :=
  "ABCDEFGHIJKLMNOPQRSTUVWXYZabcdefghijklmnopqrstuvwxyz0123456789+/".data.getD n 'A'

/-- Standard base64 encoding with `=` padding (Python `base64.b64encode`). -/
def b64encode : List Nat → List Char
  | [] => []
  | [b0] => [b64Char (b0 / 4), b64Char ((b0 % 4) * 16), '=', '=']
  | [b0, b1] => [b64Char (b0 / 4), b64Char ((b0 % 4) * 16 + b1 / 16), b64Char ((b1 % 16) * 4), '=']
  | b0 :: b1 :: b2 :: rest =>
      b64Char (b0 / 4) :: b64Char ((b0 % 4) * 16 + b1 / 16) ::
      b64Char ((b1 % 16) * 4 + b2 / 64) :: b64Char (b2 % 64) :: b64encode rest

def hexDigit (n : Nat) : Char := "0123456789ABCDEF".data.getD n '0'

/-- Percent-encoding of one character (Python `urllib.parse.quote_plus`):
ASCII alphanumerics and `_.-~` are kept, space becomes `+`, everything
else has each UTF-8 byte written as `%XX`. -/
def quotePlusChar (c : Char) : List Char :=
  if c = ' ' then ['+']
  else if c.isAlphanum ∨ c = '_' ∨ c = '.' ∨ c = '-' ∨ c = '~' then [c]
  else ((utf8Char c).map (fun b => ['%', hexDigit (b / 16), hexDigit (b % 16)])).flatten

def quotePlus (s : String) : String := ⟨(s.data.map quotePlusChar).flatten⟩

/-! ## Signing (`sign_url` in `main.py`) -/

/-- The string-to-sign `f"{timestamp}\n{secret}"`. -/
def stringToSign (timestamp secret : String) : String := timestamp ++ "\n" ++ secret

/-- The `sign` query value: URL-quoted base64 of the HMAC-SHA256 digest,
keyed by the secret, over the string-to-sign. -/
def signValue (timestamp secret : String) : String :=
  quotePlus ⟨b64encode (hmacSha256 (utf8 secret) (utf8 (stringToSign timestamp secret)))⟩

/-- `sign_url`: appends timestamp and signature to the webhook base URL.
The current epoch-millisecond clock reading is passed explicitly. -/
def sign_url (webhook secret : String) (timestampMs : Nat) : String :=
  let timestamp := toString timestampMs
  webhook ++ "&timestamp=" ++ timestamp ++ "&sign=" ++ signValue timestamp secret

/-! ## Timestamp parsing (`datetime.strptime(s, "%Y-%m-%dT%H:%M:%SZ")`)

Python's `strptime` compiles the format to a regex; each numeric field is
an ordered alternation (two-digit forms first, then a bare digit) matched
with backtracking. `parseTs` reproduces that, then applies the `datetime`
constructor's range checks, and yields epoch seconds as an `Int`. -/

def digit? (c : Char) : Option Nat := if c.isDigit then some (c.toNat - 48) else none

/-- `%Y`: exactly four digits. -/
def parseY : List Char → Option (Nat × List Char)
  | c1 :: c2 :: c3 :: c4 :: rest =>
      match digit? c1, digit? c2, digit? c3, digit? c4 with
      | some d1, some d2, some d3, some d4 =>
          some (((d1 * 10 + d2) * 10 + d3) * 10 + d4, rest)
      | _, _, _, _ => none
  | _ => none

/-- A numeric field: the two-digit alternatives (filtered by `valid2`)
take priority over the single-digit alternative (filtered by `valid1`),
in regex alternation order. -/
def numAlts (valid2 valid1 : Nat → Bool) : List Char → List (Nat × List Char)
  | [] => []
  | [c1] =>
      match digit? c1 with
      | some d1 => if valid1 d1 then [(d1, [])] else []
      | none => []
  | c1 :: c2 :: rest =>
      match digit? c1 with
      | none => []
      | some d1 =>
          (match digit? c2 with
           | some d2 => if valid2 (d1 * 10 + d2) then [(d1 * 10 + d2, rest)] else []
           | none => []) ++
          (if valid1 d1 then [(d1, c2 :: rest)] else [])

/-- Try each alternative in order, backtracking into the continuation. -/
def pick {α : Type} (alts : List (Nat × List Char)) (k : Nat → List Char → Option α) : Option α :=
  match alts with
  | [] => none
  | (v, rest) :: more =>
      match k v rest with
      | some r => some r
      | none => pick more k

def lit? (c : Char) : List Char → Option (List Char)
  | x :: rest => if x = c then some rest else none
  | [] => none

/-- Regex field predicates from Python `_strptime.TimeRE`. -/
def monthTwo (n : Nat) : Bool := (10 ≤ n && n ≤ 12) || (1 ≤ n && n ≤ 9)

def monthOne (n : Nat) : Bool := 1 ≤ n && n ≤ 9

def dayTwo (n : Nat) : Bool := (30 ≤ n && n ≤ 31) || (10 ≤ n && n ≤ 29) || (1 ≤ n && n ≤ 9)

def dayOne (n : Nat) : Bool := 1 ≤ n && n ≤ 9

def hourTwo (n : Nat) : Bool := n ≤ 23

def minuteTwo (n : Nat) : Bool := n ≤ 59

def secondTwo (n : Nat) : Bool := n ≤ 61

def anyDigit (_ : Nat) : Bool := true

/-- Match the full `%Y-%m-%dT%H:%M:%SZ` pattern against the whole string. -/
def strpFields (cs : List Char) : Option (Nat × Nat × Nat × Nat × Nat × Nat) :=
  match parseY cs with
  | none => none
  | some (y, r0) =>
    match lit? '-' r0 with
    | none => none
    | some r1 =>
      pick (numAlts monthTwo monthOne r1) (fun mo r2 =>
        match lit? '-' r2 with
        | none => none
        | some r3 =>
          pick (numAlts dayTwo dayOne r3) (fun d r4 =>
            match lit? 'T' r4 with
            | none => none
            | some r5 =>
              pick (numAlts hourTwo anyDigit r5) (fun h r6 =>
                match lit? ':' r6 with
                | none => none
                | some r7 =>
                  pick (numAlts minuteTwo anyDigit r7) (fun mi r8 =>
                    match lit? ':' r8 with
                    | none => none
                    | some r9 =>
                      pick (numAlts secondTwo anyDigit r9) (fun sec r10 =>
                        match lit? 'Z' r10 with
                        | some [] => some (y, mo, d, h, mi, sec)
                        | _ => none)))))

def isLeap (y : Nat) : Bool := y % 4 = 0 && (y % 100 ≠ 0 || y % 400 = 0)

def daysInMonth (y m : Nat) : Nat :=
  if m = 2 then (if isLeap y then 29 else 28)
  else if m = 4 ∨ m = 6 ∨ m = 9 ∨ m = 11 then 30
  else 31

/-- Days since 1970-01-01 of a civil date (years ≥ 1). -/
def daysFromCivil (y m d : Nat) : Int :=
  let y' := if m ≤ 2 then y - 1 else y
  let era := y' / 400
  let yoe := y' % 400
  let mp := if 2 < m then m - 3 else m + 9
  let doy := (153 * mp + 2) / 5 + d - 1
  let doe := yoe * 365 + yoe / 4 - yoe / 100 + doy
  (era : Int) * 146097 + (doe : Int) - 719468

def toEpoch (y mo d h mi s : Nat) : Int :=
  daysFromCivil y mo d * 86400 + ((h * 3600 + mi * 60 + s : Nat) : Int)

/-- `datetime.strptime(s, "%Y-%m-%dT%H:%M:%SZ")` as epoch seconds; `none`
when the regex does not match or the `datetime` constructor would raise
(year 0, day out of range for the month, second 60 or 61). -/
def parseTs (s : String) : Option Int :=
  match strpFields s.data with
  | none => none
  | some (y, mo, d, h, mi, sec) =>
      if 1 ≤ y ∧ 1 ≤ d ∧ d ≤ daysInMonth y mo ∧ sec ≤ 59 then
        some (toEpoch y mo d h mi sec)
      else none

/-! ## Formatting (`strftime("%Y-%m-%d %H:%M")`) -/

/-- Civil date (y, m, d) of a day count since 1970-01-01. -/
def civilFromDays (z : Int) : Nat × Nat × Nat :=
  let z' := z + 719468
  let era := z'.fdiv 146097
  let doe := (z' - era * 146097).toNat
  let yoe := (doe - doe / 1460 + doe / 36524 - doe / 146096) / 365
  let y := yoe + 400 * era.toNat
  let doy := doe - (365 * yoe + yoe / 4 - yoe / 100)
  let mp := (5 * doy + 2) / 153
  let d := doy - (153 * mp + 2) / 5 + 1
  let m := if mp < 10 then mp + 3 else mp - 9
  (if m ≤ 2 then y + 1 else y, m, d)

def pad2 (n : Nat) : String := if n < 10 then "0" ++ toString n else toString n

def pad4 (n : Nat) : String :=
  if n < 10 then "000" ++ toString n
  else if n < 100 then "00" ++ toString n
  else if n < 1000 then "0" ++ toString n
  else toString n

/-- `published.strftime("%Y-%m-%d %H:%M")` on epoch seconds. -/
def fmtPublished (t : Int) : String :=
  let days := t.fdiv 86400
  let rem := (t - days * 86400).toNat
  let c := civilFromDays days
  pad4 c.1 ++ "-" ++ pad2 c.2.1 ++ "-" ++ pad2 c.2.2 ++ " " ++
    pad2 (rem / 3600) ++ ":" ++ pad2 ((rem / 60) % 60)

/-! ## Python string helpers -/

/-- Whitespace stripped by `str.strip()` (ASCII part). -/
def pyIsSpace (c : Char) : Bool :=
  c = ' ' || c = '\t' || c = '\n' || c = '\r' || c = '\x0b' || c = '\x0c'

/-- `str.strip()` on a character list. -/
def pyStrip (l : List Char) : List Char :=
  ((l.dropWhile pyIsSpace).reverse.dropWhile pyIsSpace).reverse

/-- Python's `needle in hay` substring test. -/
def hasSub (n : List Char) : List Char → Bool
  | [] => n.isEmpty
  | c :: t => n.isPrefixOf (c :: t) || hasSub n t

/-- `str.lower()` on a character list (ASCII part). -/
def strLower (l : List Char) : List Char := l.map Char.toLower

/-- `dict.get(k)`: `none` for an absent key or a JSON null value. -/
def pyGet (f : Option (Option String)) : Option String := f.getD none

/-- `dict.get(k, default)`: the default applies only when the key is absent. -/
def pyGetD (f : Option (Option String)) (d : String) : Option String :=
  match f with
  | none => some d
  | some v => v

/-- Python truthiness of a string-or-`None` (`None` and `""` are falsy). -/
def pyTruthy : Option String → Bool
  | none => false
  | some s => !s.isEmpty

/-- `x or ""` on a string-or-`None`. -/
def pyOrEmpty : Option String → String
  | none => ""
  | some s => if s.isEmpty then "" else s

/-- `str(x)` on a string-or-`None`. -/
def pyStr : Option String → String
  | none => "None"
  | some s => s

/-! ## The fetch pipeline (`fetch_news`) -/

def KEYWORDS : List String := ["sewing thread"]

def DAYS_FILTER : Nat := 360

def NEWS_LIMIT : Nat := 3

/-- A JSON article record. Each field is `none` when the key is absent,
`some none` when it is present with a null (or non-string) value, and
`some (some s)` when it holds the string `s`. `sourceName` stands for
the nested `source.name` lookup (`none` = absent at either level). -/
structure Article where
  publishedAt : Option (Option String) := none
  url : Option (Option String) := none
  urlToImage : Option (Option String) := none
  title : Option (Option String) := none
  description : Option (Option String) := none
  sourceName : Option (Option String) := none
deriving DecidableEq

/-- The dictionary appended to `all_news` for a surviving article. -/
structure Candidate where
  title : Option String
  description : String
  url : String
  image : String
  published : String
  published_dt : Int
  source : Option String
  region : String
deriving DecidableEq

/-- `image = image_url.strip() if isinstance(image_url, str) and
image_url.strip() else ""`. -/
def imageOf (a : Article) : String :=
  match pyGet a.urlToImage with
  | none => ""
  | some s => if (pyStrip s.data).isEmpty then "" else ⟨pyStrip s.data⟩

/-- The dictionary literal appended to `all_news`. -/
def mkCandidate (a : Article) (u : String) (published : Int) : Candidate :=
  { title := pyGetD a.title ""
    description := pyOrEmpty (pyGet a.description)
    url := u
    image := imageOf a
    published := fmtPublished published
    published_dt := published
    source := pyGetD a.sourceName ""
    region := "" }

/-- The body of the per-article loop in `fetch_news`: threads the
`seen_links` set (as a list) and the `all_news` accumulator. -/
def processArticle (now : Int) (st : List String × List Candidate) (a : Article) :
    List String × List Candidate :=
  match pyGet a.publishedAt with
  | none => st
  | some pubStr =>
    if pubStr.isEmpty then st else
    match parseTs pubStr with
    | none => st
    | some published =>
      if published < now - (DAYS_FILTER : Int) * 86400 then st else
      match pyGet a.url with
      | none => st
      | some u =>
        if u.isEmpty then st else
        if u ∈ st.1 then st else
        if hasSub "webp".data (strLower (imageOf a).data) then (u :: st.1, st.2)
        else (u :: st.1, st.2 ++ [mkCandidate a u published])

/-- The HTTP response for one keyword: a status code, and the parsed JSON
body's `articles` field when the body has one. -/
structure HttpResponse where
  status : Nat
  articlesField : Option (List Article)
deriving DecidableEq

/-- One keyword iteration of `fetch_news`: anything but status 200 is
logged and skipped; otherwise fold the `articles` list (an absent field
defaults to `[]` via `.get("articles", [])`). -/
def fetchKeyword (now : Int) (st : List String × List Candidate) (r : HttpResponse) :
    List String × List Candidate :=
  if r.status ≠ 200 then st
  else (r.articlesField.getD []).foldl (processArticle now) st

/-- The accumulated `all_news` list after the whole keyword loop. -/
def allNewsOf (now : Int) (resps : List HttpResponse) : List Candidate :=
  (resps.foldl (fetchKeyword now) ([], [])).2

/-- `recent_news`: candidates published within the last 2 days. -/
def recentNewsOf (now : Int) (resps : List HttpResponse) : List Candidate :=
  (allNewsOf now resps).filter (fun n => now - 2 * 86400 ≤ n.published_dt)

/-- `fetch_news`: shuffle the recent candidates and keep `NEWS_LIMIT`.
The in-place `random.shuffle` is modelled by a permutation-valued
`shuffle` parameter. -/
def fetchNews (now : Int) (resps : List HttpResponse)
    (shuffle : List Candidate → List Candidate) : List Candidate :=
  (shuffle (recentNewsOf now resps)).take NEWS_LIMIT

/-! ## Dispatch (`send_to_dingtalk`) -/

structure DingPayload where
  msgtype : String
  title : String
  text : String
deriving DecidableEq

/-- One rendered message block (the f-string in `send_to_dingtalk`,
including its final `.strip()`). -/
def renderBlock (i : Nat) (item : Candidate) : String :=
  let raw :=
    " " ++ toString i ++ ". [" ++ pyStr item.title ++ "](" ++ item.url ++ ")\n\n" ++
    "🌐 来源：" ++ pyStr item.source ++
    (if item.region.isEmpty then "" else " | 地区：" ++ item.region) ++ "\n" ++
    "🕘 时间：" ++ item.published ++ "\n" ++
    (if item.image.isEmpty then "" else "![图片](" ++ item.image ++ ")") ++ "\n"
  ⟨pyStrip raw.data⟩

/-- The joined markdown body. -/
def renderBlocks (news : List Candidate) : String :=
  String.intercalate "\n\n---\n\n" (news.enum.map (fun p => renderBlock (p.1 + 1) p.2))

/-- `send_to_dingtalk`: `none` means the function returned without
signing or posting; `some (url, payload)` is the single POST issued to
the signed URL. -/
def sendToDingtalk (webhook secret : String) (nowMs : Nat) (news : List Candidate) :
    Option (String × DingPayload) :=
  if news.isEmpty then none
  else some (sign_url webhook secret nowMs,
             { msgtype := "markdown", title := "📢最新速览", text := renderBlocks news })

/-! ## Whole-run model (module check + `fetch_news` + `send_to_dingtalk`) -/

inductive NetEvent
  | get (url : String)
  | post (url : String)
deriving DecidableEq

/-- `urllib.parse.quote` with the default safe set (keeps `/`). -/
def quoteChar (c : Char) : List Char :=
  if c.isAlphanum ∨ c = '_' ∨ c = '.' ∨ c = '-' ∨ c = '~' ∨ c = '/' then [c]
  else ((utf8Char c).map (fun b => ['%', hexDigit (b / 16), hexDigit (b % 16)])).flatten

def quote (s : String) : String := ⟨(s.data.map quoteChar).flatten⟩

def newsApiUrl (apiKey keyword : String) : String :=
  "https://newsapi.org/v2/everything?q=" ++ quote keyword ++ "&apiKey=" ++ apiKey ++
  "&pageSize=50&sortBy=publishedAt"

/-- The whole run: the module-level `all([...])` secret check, then the
fetch loop's GET per keyword, then the optional POST from
`send_to_dingtalk`. Returns the network requests issued, or the
`ValueError` message when a secret is falsy. -/
def runMain (apiKey webhook secret : Option String)
    (now : Int) (nowMs : Nat) (resps : List HttpResponse)
    (shuffle : List Candidate → List Candidate) :
    Except String (List NetEvent) :=
  if pyTruthy apiKey && pyTruthy webhook && pyTruthy secret then
    Except.ok ((KEYWORDS.map (fun k => NetEvent.get (newsApiUrl (apiKey.getD "") k))) ++
      (match sendToDingtalk (webhook.getD "") (secret.getD "") nowMs
               (fetchNews now resps shuffle) with
       | none => []
       | some (u, _) => [NetEvent.post u]))
  else
    Except.error "请确认 NEWSAPI_KEY、DINGTALK_WEBHOOK 和 DINGTALK_SECRET 已设置"

/-! ## Concrete scenario inputs -/

/-- 2024-01-15T00:00:00Z as epoch seconds. -/
def nowJan15 : Int := 1705276800

def dupFirst : Article :=
  { publishedAt := some (some "2024-01-14T12:00:00Z"), url := some (some "http://dup"),
    title := some (some "A") }

def dupSecond : Article :=
  { publishedAt := some (some "2024-01-14T12:00:00Z"), url := some (some "http://dup"),
    title := some (some "B") }

/-- Two fetched articles with the same url and different titles. -/
def dupResp : HttpResponse := { status := 200, articlesField := some [dupFirst, dupSecond] }

/-- Five distinct articles all published 10 days before `nowJan15`. -/
def oldResp : HttpResponse :=
  { status := 200,
    articlesField := some
      ((List.range 5).map (fun i =>
        { publishedAt := some (some "2024-01-05T00:00:00Z"),
          url := some (some ("http://old" ++ toString i)) })) }

/-- An article that passes every filter at `nowJan15`. -/
def okArticle : Article :=
  { publishedAt := some (some "2024-01-14T12:00:00Z"), url := some (some "http://ok") }

/-- An article whose image URL contains `webp`. -/
def webpArticle : Article :=
  { publishedAt := some (some "2024-01-14T12:00:00Z"), url := some (some "http://w8"),
    urlToImage := some (some "http://img/x.webp") }

/-- A later article with `webpArticle`'s url but no image. -/
def retryArticle : Article :=
  { publishedAt := some (some "2024-01-14T12:00:00Z"), url := some (some "http://w8"),
    title := some (some "retry") }

/-- An article whose `title` and `description` keys hold JSON null. -/
def nullTitleArticle : Article :=
  { publishedAt := some (some "2024-01-14T12:00:00Z"), url := some (some "http://n9"),
    title := some none, description := some none }

/-- The candidate built from `nullTitleArticle`. -/
def nullTitleCand : Candidate :=
  { title := none, description := "", url := "http://n9", image := "",
    published := "2024-01-14 12:00", published_dt := 1705233600,
    source := some "", region := "" }

/-! ## Helper lemmas on the fetch loop -/

/-- Case analysis on one article step: either the state is unchanged, or
the article's url is new and gets recorded, with the article either
rejected by the webp filter or appended as a candidate. -/
theorem processArticle_eq_or (now : Int) (st : List String × List Candidate) (a : Article) :
    processArticle now st a = st ∨
    ∃ u, pyGet a.url = some u ∧ u ∉ st.1 ∧ (processArticle now st a).1 = u :: st.1 ∧
      ((hasSub "webp".data (strLower (imageOf a).data) = true ∧
          (processArticle now st a).2 = st.2) ∨
       (hasSub "webp".data (strLower (imageOf a).data) = false ∧
          ∃ published, (processArticle now st a).2 = st.2 ++ [mkCandidate a u published])) := by
  unfold processArticle
  split
  · exact Or.inl rfl
  · split
    · exact Or.inl rfl
    · split
      · exact Or.inl rfl
      · split
        · exact Or.inl rfl
        · split
          · exact Or.inl rfl
          next u hu =>
            split
            · exact Or.inl rfl
            · split
              · exact Or.inl rfl
              next hnotin =>
                split
                next hwebp =>
                  exact Or.inr ⟨u, hu, hnotin, rfl, Or.inl ⟨hwebp, rfl⟩⟩
                next hwebp =>
                  exact Or.inr ⟨u, hu, hnotin, rfl,
                    Or.inr ⟨Bool.not_eq_true _ ▸ eq_false_of_ne_true hwebp, _, rfl⟩⟩

/-- The `seen_links` set only grows. -/
theorem processArticle_seen_sub (now : Int) (st : List String × List Candidate) (a : Article) :
    st.1 ⊆ (processArticle now st a).1 := by
  rcases processArticle_eq_or now st a with h | ⟨u, _, _, h1, _⟩
  · rw [h]; exact fun x hx => hx
  · rw [h1]; exact List.subset_cons_self u st.1

/-- The dedup invariant: candidate urls are pairwise distinct and all
recorded in `seen_links`. -/
def GoodState (st : List String × List Candidate) : Prop :=
  st.2.Pairwise (fun c d => c.url ≠ d.url) ∧ ∀ c ∈ st.2, c.url ∈ st.1

theorem processArticle_good (now : Int) (st : List String × List Candidate) (a : Article)
    (h : GoodState st) : GoodState (processArticle now st a) := by
  obtain ⟨hpw, hmem⟩ := h
  rcases processArticle_eq_or now st a with heq | ⟨u, hu, hnotin, h1, ⟨_, h2⟩ | ⟨_, p, h2⟩⟩
  · rw [heq]; exact ⟨hpw, hmem⟩
  · refine ⟨by rw [h2]; exact hpw, ?_⟩
    rw [h1, h2]
    exact fun c hc => List.mem_cons_of_mem u (hmem c hc)
  · constructor
    · rw [h2]
      refine List.pairwise_append.mpr ⟨hpw, List.pairwise_singleton _ _, ?_⟩
      intro d hd e he
      rw [List.mem_singleton.mp he]
      intro hde
      have hdu : d.url = u := hde
      have h5 := hmem d hd
      rw [hdu] at h5
      exact hnotin h5
    · rw [h1, h2]
      intro c hc
      rcases List.mem_append.mp hc with hc | hc
      · exact List.mem_cons_of_mem u (hmem c hc)
      · rw [List.mem_singleton.mp hc]; exact List.mem_cons_self u st.1

theorem foldl_processArticle_good (now : Int) (arts : List Article)
    (st : List String × List Candidate) (h : GoodState st) :
    GoodState (arts.foldl (processArticle now) st) := by
  induction arts generalizing st with
  | nil => exact h
  | cons a rest ih => exact ih _ (processArticle_good now st a h)

theorem fetchKeyword_good (now : Int) (st : List String × List Candidate) (r : HttpResponse)
    (h : GoodState st) : GoodState (fetchKeyword now st r) := by
  unfold fetchKeyword
  split
  · exact h
  · exact foldl_processArticle_good now _ st h

theorem foldl_fetchKeyword_good (now : Int) (resps : List HttpResponse)
    (st : List String × List Candidate) (h : GoodState st) :
    GoodState (resps.foldl (fetchKeyword now) st) := by
  induction resps generalizing st with
  | nil => exact h
  | cons r rest ih => exact ih _ (fetchKeyword_good now st r h)

theorem allNewsOf_pairwise (now : Int) (resps : List HttpResponse) :
    (allNewsOf now resps).Pairwise (fun c d => c.url ≠ d.url) :=
  (foldl_fetchKeyword_good now resps ([], []) ⟨List.Pairwise.nil, by simp⟩).1

/-- Once a url is in `seen_links`, it stays there, and no later article
contributes a new candidate with that url. -/
theorem processArticle_old_url (now : Int) (st : List String × List Candidate) (a : Article)
    (u : String) (hu : u ∈ st.1) :
    u ∈ (processArticle now st a).1 ∧
    ∀ c ∈ (processArticle now st a).2, c.url = u → c ∈ st.2 := by
  rcases processArticle_eq_or now st a with heq | ⟨v, _, hvnot, h1, ⟨_, h2⟩ | ⟨_, p, h2⟩⟩
  · rw [heq]; exact ⟨hu, fun c hc _ => hc⟩
  · rw [h1, h2]; exact ⟨List.mem_cons_of_mem v hu, fun c hc _ => hc⟩
  · rw [h1, h2]
    refine ⟨List.mem_cons_of_mem v hu, ?_⟩
    intro c hc hcu
    rcases List.mem_append.mp hc with hc | hc
    · exact hc
    · rw [List.mem_singleton.mp hc] at hcu ⊢
      have hvu : v = u := hcu
      rw [hvu] at hvnot
      exact absurd hu hvnot

theorem foldl_old_url (now : Int) (arts : List Article) (st : List String × List Candidate)
    (u : String) (hu : u ∈ st.1) :
    u ∈ (arts.foldl (processArticle now) st).1 ∧
    ∀ c ∈ (arts.foldl (processArticle now) st).2, c.url = u → c ∈ st.2 := by
  induction arts generalizing st with
  | nil => exact ⟨hu, fun c hc _ => hc⟩
  | cons a rest ih =>
      obtain ⟨h1, h2⟩ := processArticle_old_url now st a u hu
      obtain ⟨h3, h4⟩ := ih _ h1
      exact ⟨h3, fun c hc hcu => h2 c (h4 c hc hcu) hcu⟩

/-! ## Substring and strip lemmas for the webp filter -/

theorem hasSub_iff (n l : List Char) : hasSub n l = true ↔ n <:+: l := by
  induction l with
  | nil =>
      simp only [hasSub, List.isEmpty_iff, List.infix_nil]
  | cons c t ih =>
      simp only [hasSub, Bool.or_eq_true, ih, List.isPrefixOf_iff_prefix, List.infix_cons_iff]

/-- A nonempty infix whose characters all fail `p` survives `dropWhile p`. -/
theorem infix_dropWhile (p : Char → Bool) (n : List Char) (hn : n ≠ [])
    (hh : ∀ c ∈ n, p c = false) :
    ∀ l : List Char, n <:+: l → n <:+: l.dropWhile p := by
  intro l
  induction l with
  | nil => exact fun h => h
  | cons c t ih =>
      intro h
      rw [List.dropWhile_cons]
      split
      next hc =>
        rcases List.infix_cons_iff.mp h with hpre | hinf
        · obtain ⟨m, hm⟩ := hpre
          cases n with
          | nil => exact absurd rfl hn
          | cons n0 ns =>
              have h0 : n0 = c := by
                have := hm
                simp only [List.cons_append] at this
                exact (List.cons.injEq _ _ _ _ ▸ this).1
              have := hh n0 (List.mem_cons_self n0 ns)
              rw [h0, hc] at this
              exact absurd this (by simp)
        · exact ih hinf
      · exact h

/-- A nonempty infix of non-stripped characters survives `str.strip()`. -/
theorem infix_pyStrip (n l : List Char) (hn : n ≠ [])
    (hh : ∀ c ∈ n, pyIsSpace c = false) (h : n <:+: l) : n <:+: pyStrip l := by
  unfold pyStrip
  have h1 : n <:+: l.dropWhile pyIsSpace := infix_dropWhile pyIsSpace n hn hh l h
  have h2 : n.reverse <:+: (l.dropWhile pyIsSpace).reverse := List.reverse_infix.mpr h1
  have h3 : n.reverse <:+: ((l.dropWhile pyIsSpace).reverse.dropWhile pyIsSpace) :=
    infix_dropWhile pyIsSpace n.reverse (by simpa using hn)
      (fun c hc => hh c (List.mem_reverse.mp hc)) _ h2
  have h4 := List.reverse_infix.mpr h3
  simpa using h4

theorem pyIsSpace_toLower (c : Char) (h : pyIsSpace c = true) : Char.toLower c = c := by
  unfold pyIsSpace at h
  simp only [Bool.or_eq_true, decide_eq_true_eq] at h
  rcases h with ((((h | h) | h) | h) | h) | h <;> subst h <;> decide

theorem webp_chars_not_space (c : Char) (h : Char.toLower c ∈ "webp".data) :
    pyIsSpace c = false := by
  by_contra hc
  have hc' : pyIsSpace c = true := by
    cases h' : pyIsSpace c
    · exact absurd h' hc
    · rfl
  rw [pyIsSpace_toLower c hc'] at h
  unfold pyIsSpace at hc'
  fin_cases h <;> revert hc' <;> decide

/-- A case-insensitive webp occurrence survives stripping: if `webp`
occurs in the lower-cased string, it occurs in the lower-cased stripped
string, which in particular is nonempty. -/
theorem hasSub_webp_strip (s : List Char)
    (h : hasSub "webp".data (strLower s) = true) :
    hasSub "webp".data (strLower (pyStrip s)) = true ∧ pyStrip s ≠ [] := by
  have hinf : "webp".data <:+: strLower s := (hasSub_iff _ _).mp h
  obtain ⟨u, v, huv⟩ := hinf
  have hsplit1 := List.map_eq_append_iff.mp (huv.symm : strLower s = (u ++ "webp".data) ++ v)
  obtain ⟨l1, v', hl, hmap1, hmapv⟩ := hsplit1
  obtain ⟨u', m, hl1, hmapu, hmapm⟩ := List.map_eq_append_iff.mp hmap1
  have hmne : m ≠ [] := by
    intro he
    rw [he] at hmapm
    simp at hmapm
  have hminf : m <:+: s := by
    rw [hl, hl1]
    exact ⟨u', v', by simp⟩
  have hms : ∀ c ∈ m, pyIsSpace c = false := by
    intro c hc
    exact webp_chars_not_space c (by rw [← hmapm]; exact List.mem_map_of_mem _ hc)
  have h2 : m <:+: pyStrip s := infix_pyStrip m s hmne hms hminf
  constructor
  · rw [hasSub_iff, ← hmapm]
    exact List.IsInfix.map Char.toLower h2
  · intro hnil
    rw [hnil, List.infix_nil] at h2
    exact hmne h2

/-- An article whose image URL contains `webp` (case-insensitively)
never has a candidate appended. -/
theorem webp_excluded (now : Int) (st : List String × List Candidate) (a : Article)
    (s : String) (himg : a.urlToImage = some (some s))
    (hwebp : hasSub "webp".data (strLower s.data) = true) :
    (processArticle now st a).2 = st.2 := by
  have himage : (imageOf a).data = pyStrip s.data := by
    unfold imageOf
    rw [himg]
    show (match (some s : Option String) with
          | none => ""
          | some s => if (pyStrip s.data).isEmpty then "" else ⟨pyStrip s.data⟩ : String).data
        = pyStrip s.data
    obtain ⟨hs1, hs2⟩ := hasSub_webp_strip s.data hwebp
    simp [List.isEmpty_iff, hs2]
  have hhit : hasSub "webp".data (strLower (imageOf a).data) = true := by
    rw [himage]
    exact (hasSub_webp_strip s.data hwebp).1
  rcases processArticle_eq_or now st a with heq | ⟨u, _, _, _, ⟨_, h2⟩ | ⟨hfalse, _, _⟩⟩
  · rw [heq]
  · exact h2
  · rw [hhit] at hfalse
    exact absurd hfalse (by simp)

theorem pyTruthy_none : pyTruthy none = false := rfl

theorem pyTruthy_some_empty : pyTruthy (some "") = false := by decide

/-! ## Claims -/

/-- C1: the signed-URL computation builds the string-to-sign as
timestamp, newline, secret; HMAC-SHA256s it with the secret as key;
base64-encodes the digest; then URL-percent-encodes the base64 text.
For timestamp "1700000000000" and secret "testsecret" it always yields
the fixed golden value. -/
theorem sign_spec_and_golden :
    (∀ ts secret : String, stringToSign ts secret = ts ++ "\n" ++ secret) ∧
    (∀ ts secret : String, signValue ts secret =
      quotePlus ⟨b64encode (hmacSha256 (utf8 secret) (utf8 (stringToSign ts secret)))⟩) ∧
    signValue "1700000000000" "testsecret" =
      "d043yCasNZ%2BKC1N0lrVg%2BAan0gEIKPvRfzRqMlUUwzk%3D" :=
  ⟨fun _ _ => rfl, fun _ _ => rfl, by decide⟩

/-- C2: for every run, the selected list has pairwise-distinct urls and
length at most `NEWS_LIMIT` (= 3); and on the two-article same-url
scenario only the first-encountered article is retained. -/
theorem selected_nodup_limit_first_kept
    (now : Int) (resps : List HttpResponse) (shuffle : List Candidate → List Candidate)
    (hshuffle : ∀ l : List Candidate, List.Perm (shuffle l) l) :
    (fetchNews now resps shuffle).Pairwise (fun c d => c.url ≠ d.url) ∧
    (fetchNews now resps shuffle).length ≤ NEWS_LIMIT ∧
    (allNewsOf nowJan15 [dupResp]).map (fun c => (c.title, c.url)) =
      [(some "A", "http://dup")] := by
  refine ⟨?_, ?_, by decide⟩
  · have h1 := allNewsOf_pairwise now resps
    have h2 : (recentNewsOf now resps).Pairwise (fun c d => c.url ≠ d.url) :=
      List.Pairwise.filter _ h1
    have h3 : (shuffle (recentNewsOf now resps)).Pairwise (fun c d => c.url ≠ d.url) :=
      (List.Perm.pairwise_iff (fun h => Ne.symm h) (hshuffle _)).mpr h2
    exact List.Pairwise.sublist (List.take_sublist _ _) h3
  · exact List.length_take_le _ _

theorem selected_nodup_limit_first_kept_witness :
    (fetchNews nowJan15 [dupResp] id).Pairwise (fun c d => c.url ≠ d.url) ∧
    (fetchNews nowJan15 [dupResp] id).length ≤ NEWS_LIMIT ∧
    (allNewsOf nowJan15 [dupResp]).map (fun c => (c.title, c.url)) =
      [(some "A", "http://dup")] :=
  selected_nodup_limit_first_kept nowJan15 [dupResp] id (fun l => List.Perm.refl l)

/-- C3: every selected article's raw published timestamp is within the
last 2 days of the current time; and five articles published 10 days
before `nowJan15` all pass the 360-day fetch filter (five candidates)
yet the selected list is empty. -/
theorem selected_within_two_days
    (now : Int) (resps : List HttpResponse) (shuffle : List Candidate → List Candidate)
    (hshuffle : ∀ l : List Candidate, List.Perm (shuffle l) l) :
    (∀ c ∈ fetchNews now resps shuffle, now - 2 * 86400 ≤ c.published_dt) ∧
    (allNewsOf nowJan15 [oldResp]).length = 5 ∧
    fetchNews nowJan15 [oldResp] id = [] := by
  refine ⟨?_, by decide, by decide⟩
  intro c hc
  have h1 : c ∈ shuffle (recentNewsOf now resps) :=
    List.Sublist.mem hc (List.take_sublist _ _)
  have h2 : c ∈ recentNewsOf now resps := ((hshuffle _).mem_iff).mp h1
  have h3 := List.of_mem_filter
    (show c ∈ List.filter _ (allNewsOf now resps) from h2)
  exact of_decide_eq_true h3

theorem selected_within_two_days_witness :
    (∀ c ∈ fetchNews nowJan15 [oldResp] id, nowJan15 - 2 * 86400 ≤ c.published_dt) ∧
    (allNewsOf nowJan15 [oldResp]).length = 5 ∧
    fetchNews nowJan15 [oldResp] id = [] :=
  selected_within_two_days nowJan15 [oldResp] id (fun l => List.Perm.refl l)

/-- C4: an article whose image URL contains "webp" (case-insensitively,
anywhere) is never appended to the candidate list, whatever its other
fields. -/
theorem webp_image_always_excluded (now : Int) (st : List String × List Candidate)
    (a : Article) (s : String)
    (himg : a.urlToImage = some (some s))
    (hwebp : hasSub "webp".data (strLower s.data) = true) :
    (processArticle now st a).2 = st.2 :=
  webp_excluded now st a s himg hwebp

theorem webp_image_always_excluded_witness :
    webpArticle.urlToImage = some (some "http://img/x.webp") ∧
    hasSub "webp".data (strLower "http://img/x.webp".data) = true ∧
    (processArticle nowJan15 ([], []) webpArticle).2 = [] :=
  ⟨rfl, by decide,
    webp_image_always_excluded nowJan15 ([], []) webpArticle "http://img/x.webp" rfl (by decide)⟩

/-- C5: if any of the three secrets is absent or empty, the run aborts
with the configuration `ValueError` and no network request is issued. -/
theorem missing_secret_aborts (apiKey webhook secret : Option String)
    (now : Int) (nowMs : Nat) (resps : List HttpResponse)
    (shuffle : List Candidate → List Candidate)
    (h : apiKey = none ∨ apiKey = some "" ∨ webhook = none ∨ webhook = some "" ∨
         secret = none ∨ secret = some "") :
    runMain apiKey webhook secret now nowMs resps shuffle =
      Except.error "请确认 NEWSAPI_KEY、DINGTALK_WEBHOOK 和 DINGTALK_SECRET 已设置" ∧
    ∀ events : List NetEvent,
      runMain apiKey webhook secret now nowMs resps shuffle ≠ Except.ok events := by
  have hfalse : (pyTruthy apiKey && pyTruthy webhook && pyTruthy secret) = false := by
    rcases h with h | h | h | h | h | h <;> subst h <;>
      simp [pyTruthy_none, pyTruthy_some_empty]
  constructor
  · unfold runMain
    rw [hfalse]
    simp
  · intro events
    unfold runMain
    rw [hfalse]
    simp

theorem missing_secret_aborts_witness :
    runMain none (some "https://hook?a=1") (some "sec") nowJan15 1700000000000 [] id =
      Except.error "请确认 NEWSAPI_KEY、DINGTALK_WEBHOOK 和 DINGTALK_SECRET 已设置" ∧
    ∀ events : List NetEvent,
      runMain none (some "https://hook?a=1") (some "sec") nowJan15 1700000000000 [] id ≠
        Except.ok events :=
  missing_secret_aborts none (some "https://hook?a=1") (some "sec") nowJan15 1700000000000 []
    id (Or.inl rfl)

/-- C6 (counterexample): status 201 is a 2xx success, yet the keyword's
articles are not processed — the same articles under status 200 do
change the state. -/
theorem success_status_counterexample :
    (200 ≤ 201 ∧ 201 < 300) ∧
    fetchKeyword nowJan15 ([], []) { status := 201, articlesField := some [okArticle] } =
      ([], []) ∧
    fetchKeyword nowJan15 ([], []) { status := 200, articlesField := some [okArticle] } ≠
      ([], []) :=
  ⟨⟨by decide, by decide⟩, by decide, by decide⟩

/-- C6 (amended): a keyword fetch is skipped (state unchanged, run
continues) for every status other than exactly 200 — including non-2xx
errors and 2xx codes other than 200; articles are processed only on
status 200. -/
theorem non200_skipped (now : Int) (st : List String × List Candidate)
    (r : HttpResponse) (h : r.status ≠ 200) :
    fetchKeyword now st r = st := by
  unfold fetchKeyword
  rw [if_pos h]

theorem non200_skipped_witness :
    fetchKeyword nowJan15 ([], []) { status := 500, articlesField := some [okArticle] } =
      ([], []) :=
  non200_skipped nowJan15 ([], []) { status := 500, articlesField := some [okArticle] }
    (by decide)

/-- C7: with an empty selected list the dispatcher returns immediately:
no signed URL is computed and no POST is issued. -/
theorem empty_selection_no_post (webhook secret : String) (nowMs : Nat) :
    sendToDingtalk webhook secret nowMs [] = none := rfl

/-- C8: a webp-rejected article contributes no candidate but claims its
url in the seen set, so no later article with the same url contributes
a candidate either. -/
theorem webp_url_still_blocks (now : Int) (st : List String × List Candidate)
    (a : Article) (u s : String) (later : List Article)
    (himg : a.urlToImage = some (some s))
    (hwebp : hasSub "webp".data (strLower s.data) = true)
    (_hu : pyGet a.url = some u)
    (hadd : (processArticle now st a).1 = u :: st.1) :
    (processArticle now st a).2 = st.2 ∧
    ∀ c ∈ (later.foldl (processArticle now) (processArticle now st a)).2,
      c.url = u → c ∈ st.2 := by
  have h1 := webp_excluded now st a s himg hwebp
  have hmem : u ∈ (processArticle now st a).1 := by
    rw [hadd]; exact List.mem_cons_self u st.1
  obtain ⟨_, h3⟩ := foldl_old_url now later (processArticle now st a) u hmem
  refine ⟨h1, fun c hc hcu => ?_⟩
  have h4 := h3 c hc hcu
  rw [h1] at h4
  exact h4

theorem webp_url_still_blocks_witness :
    (processArticle nowJan15 ([], []) webpArticle).2 = [] ∧
    ∀ c ∈ ([retryArticle].foldl (processArticle nowJan15)
        (processArticle nowJan15 ([], []) webpArticle)).2,
      c.url = "http://w8" → c ∈ ([] : List Candidate) :=
  webp_url_still_blocks nowJan15 ([], []) webpArticle "http://w8" "http://img/x.webp"
    [retryArticle] rfl (by decide) rfl (by decide)

/-- C9: when an appended candidate's source record holds a null title,
the candidate's title is null (not the empty string); an absent title
key defaults to the empty string; a null description is coerced to the
empty string. -/
theorem null_title_kept_null (now : Int) (st : List String × List Candidate)
    (a : Article) (c : Candidate)
    (happ : (processArticle now st a).2 = st.2 ++ [c]) :
    (a.title = some none → c.title = none) ∧
    (a.title = none → c.title = some "") ∧
    (a.description = some none → c.description = "") := by
  rcases processArticle_eq_or now st a with heq | ⟨u, _, _, _, ⟨_, h2⟩ | ⟨_, p, h2⟩⟩
  · rw [heq] at happ
    have hlen := congrArg List.length happ
    simp at hlen
  · rw [h2] at happ
    have hlen := congrArg List.length happ
    simp at hlen
  · rw [h2] at happ
    have hc : mkCandidate a u p = c := by
      have h5 := List.append_cancel_left happ
      simpa using h5
    refine ⟨?_, ?_, ?_⟩ <;> intro h <;> rw [← hc] <;>
      simp [mkCandidate, pyGetD, pyGet, pyOrEmpty, h]

theorem null_title_kept_null_witness :
    (processArticle nowJan15 ([], []) nullTitleArticle).2 = [] ++ [nullTitleCand] ∧
    ((nullTitleArticle.title = some none → nullTitleCand.title = none) ∧
     (nullTitleArticle.title = none → nullTitleCand.title = some "") ∧
     (nullTitleArticle.description = some none → nullTitleCand.description = "")) :=
  ⟨by decide,
    null_title_kept_null nowJan15 ([], []) nullTitleArticle nullTitleCand (by decide)⟩

/-- C10: a status-200 response whose JSON body has no `articles` field
is treated as an empty article list: the keyword contributes nothing
and the run continues without error. -/
theorem missing_articles_field_ok (now : Int) (st : List String × List Candidate)
    (r : HttpResponse) (hs : r.status = 200) (ha : r.articlesField = none) :
    fetchKeyword now st r = st := by
  unfold fetchKeyword
  rw [if_neg (by rw [hs]; exact fun h => h rfl)]
  rw [ha]
  rfl

theorem missing_articles_field_ok_witness :
    fetchKeyword nowJan15 ([], []) { status := 200, articlesField := none } = ([], []) :=
  missing_articles_field_ok nowJan15 ([], []) { status := 200, articlesField := none }
    rfl rfl

end DingDingNews
